import Mathlib

/-!
Verification of the practice-set selection algorithm of the arpeggio
backend (`backend/services/selector.py`, with the data model from
`backend/models.py`).

The embedding is shallow:

* SQLAlchemy rows become Lean structures; the database session becomes a
  `DB` snapshot holding the two catalog tables, a practice-stats oracle
  (the selector only consumes `get_practice_stats` results), and the
  optional persisted algorithm-config setting.
* Python dicts read with `config.get(key, default)` become structures of
  `Option` fields read with `Option.getD`.
* Python floats become exact rationals (`ℚ`); `round` becomes
  `pyRound`, round-half-to-even on `ℚ`.
* The pseudo-random source becomes explicit oracles: `Rng` supplies the
  `random.uniform` and `random.randint` draws consumed by one
  `weighted_random_choice` call, and `GenRng` supplies the oracles for
  the sampling phases, the final `random.shuffle`, and the per-item
  `random.random()` articulation draws of one `generate_practice_set`
  call.  Theorems quantify over the oracles, so they hold for every
  behaviour of the random source.
-/

namespace PracticeSelector

/-- One row of the `scales` or `arpeggios` table (`models.py`).  The two
ORM classes have the same fields relevant to the selector, so one
structure serves for both; `articulation_mode` is the column added by
migration v9 (it is absent from the ORM model and never read by
`selector.py`, which is exactly what the articulation claims are about). -/
structure CatalogItem where
  id : Nat
  note : String
  accidental : Option String := none
  type : String
  octaves : Int
  enabled : Bool
  weight : ℚ := 1
  target_bpm : Option Int := none
  articulation_mode : Option String := none
deriving DecidableEq

/-- The `weighting` sub-dict of the algorithm config. -/
structure WeightingConfig where
  base_multiplier : Option ℚ := none
  days_since_practice_factor : Option ℚ := none
  practice_count_divisor : Option ℚ := none
deriving DecidableEq

/-- One entry of the legacy `slots` list of `DEFAULT_ALGORITHM_CONFIG`
(`models.py` lines 110-130). -/
structure Slot where
  name : String
  types : List String
  item_type : String
  percent : ℚ
deriving DecidableEq

/-- The `weekly_focus` sub-dict of the algorithm config. -/
structure WeeklyFocusConfig where
  enabled : Option Bool := none
  keys : Option (List String) := none
  types : Option (List String) := none
  categories : Option (List String) := none
  probability_increase : Option ℚ := none
deriving DecidableEq

/-- The `selection_algorithm` setting value: a loosely-typed dict; a
missing key is `none` and every read in `selector.py` supplies its own
default via `.get`. -/
structure AlgorithmConfig where
  total_items : Option Int := none
  variation : Option ℚ := none
  slots : Option (List Slot) := none
  octave_variety : Option Bool := none
  slurred_percent : Option ℚ := none
  weighting : Option WeightingConfig := none
  default_scale_bpm : Option Int := none
  default_arpeggio_bpm : Option Int := none
  scale_bpm_unit : Option String := none
  arpeggio_bpm_unit : Option String := none
  weekly_focus : Option WeeklyFocusConfig := none
deriving DecidableEq

/-- `DEFAULT_ALGORITHM_CONFIG` from `models.py` lines 107-149. -/
def DEFAULT_ALGORITHM_CONFIG : AlgorithmConfig where
  total_items := some 5
  variation := some 20
  slots := some
    [ { name := "Tonal Scales",
        types := ["major", "minor_harmonic", "minor_melodic"],
        item_type := "scale", percent := 30 },
      { name := "Chromatic Scales", types := ["chromatic"],
        item_type := "scale", percent := 10 },
      { name := "Seventh Arpeggios", types := ["diminished", "dominant"],
        item_type := "arpeggio", percent := 10 },
      { name := "Triad Arpeggios", types := ["major", "minor"],
        item_type := "arpeggio", percent := 50 } ]
  octave_variety := some true
  slurred_percent := some 50
  weighting := some
    { base_multiplier := some 1,
      days_since_practice_factor := some 7,
      practice_count_divisor := some 1 }
  default_scale_bpm := some 60
  default_arpeggio_bpm := some 72
  scale_bpm_unit := some "quaver"
  arpeggio_bpm_unit := some "quaver"
  weekly_focus := some
    { enabled := some false, keys := some [], types := some [],
      categories := some [], probability_increase := some 80 }

/-- A consistent snapshot of everything the selector reads from the
database session: the two catalog tables, the practice-stats accessor
(`get_practice_stats(db, item_type, item_id)` returning
`(practice_count, days_since_last_practice)`), and the persisted
`selection_algorithm` setting if any. -/
structure DB where
  scales : List CatalogItem
  arpeggios : List CatalogItem
  stats : String → Nat → Nat × Option Int
  config : Option AlgorithmConfig

/-- `get_algorithm_config` (`selector.py` lines 10-15): the persisted
setting, else `DEFAULT_ALGORITHM_CONFIG`. -/
def get_algorithm_config (db : DB) : AlgorithmConfig :=
  db.config.getD DEFAULT_ALGORITHM_CONFIG

/-- `calculate_item_weight` (`selector.py` lines 18-39). -/
def calculate_item_weight (base_weight : ℚ) (practice_count : Nat)
    (days_since_practice : Option Int) (weighting_config : WeightingConfig) : ℚ :=
  let base_mult := weighting_config.base_multiplier.getD 1
  let days_factor := weighting_config.days_since_practice_factor.getD 7
  let count_divisor := weighting_config.practice_count_divisor.getD 1
  let days_since : Int := days_since_practice.getD 30
  base_weight * base_mult * (1 + (days_since : ℚ) / days_factor)
    / ((practice_count : ℚ) + count_divisor)

/-- The random draws consumed by one `weighted_random_choice` call:
`uniform n` is the `random.uniform(0, total_weight)` value of draw `n`,
and `randint n` determines the `random.randint(0, len - 1)` index of
draw `n` (reduced mod the current pool size, so every index the source
can return is reachable and no other). -/
structure Rng where
  uniform : Nat → ℚ
  randint : Nat → Nat

/-- The roulette-wheel walk of `weighted_random_choice` (`selector.py`
lines 85-91): accumulate weights and return the first position whose
cumulative weight reaches `r`; if no position does, the Python `idx`
keeps its initial value `0`. -/
def walkIdx {α : Type} : List (α × ℚ) → ℚ → ℚ → Nat → Nat
  | [], _, _, _ => 0
  | (_, w) :: rest, r, cumulative, i =>
    if cumulative + w ≥ r then i else walkIdx rest r (cumulative + w) (i + 1)

/-- The selection loop of `weighted_random_choice` (`selector.py` lines
75-94): `fuel` is the remaining iteration count of
`range(min(count, len(remaining)))`, `n` the index of the next random
draw. -/
def wrcLoop {α : Type} (g : Rng) : Nat → Nat → List (α × ℚ) → List α
  | 0, _, _ => []
  | fuel + 1, n, remaining =>
    if remaining.isEmpty then []
    else
      let total_weight := (remaining.map Prod.snd).sum
      let idx := if total_weight ≤ 0 then g.randint n % remaining.length
                 else walkIdx remaining (g.uniform n) 0 0
      match remaining[idx]? with
      | none => []
      | some pw => pw.1 :: wrcLoop g fuel (n + 1) (remaining.eraseIdx idx)

/-- `weighted_random_choice` (`selector.py` lines 65-96): weighted random
selection without replacement, driven by the oracle `g`. -/
def weighted_random_choice {α : Type} (g : Rng) (items : List (α × ℚ))
    (count : Int) : List α :=
  if items.isEmpty ∨ count ≤ 0 then []
  else wrcLoop g (min count.toNat items.length) 0 items

/-- The `all_weights` list built by `calculate_all_likelihoods`
(`selector.py` lines 113-129): the baseline weight of every enabled
scale, then of every enabled arpeggio, keyed by `(item_type, id)`. -/
def baselineWeights (db : DB) : List ((String × Nat) × ℚ) :=
  let config := get_algorithm_config db
  let weighting_config := config.weighting.getD {}
  (db.scales.filter (·.enabled)).map (fun s =>
    (("scale", s.id),
      calculate_item_weight s.weight (db.stats "scale" s.id).1
        (db.stats "scale" s.id).2 weighting_config))
  ++ (db.arpeggios.filter (·.enabled)).map (fun a =>
    (("arpeggio", a.id),
      calculate_item_weight a.weight (db.stats "arpeggio" a.id).1
        (db.stats "arpeggio" a.id).2 weighting_config))

/-- `calculate_all_likelihoods` (`selector.py` lines 99-138), with the
returned dict embedded as the association list in insertion order (keys
are unique, see `baselineWeights`). -/
def calculate_all_likelihoods (db : DB) : List ((String × Nat) × ℚ) :=
  let all_weights := baselineWeights db
  let total_weight := (all_weights.map Prod.snd).sum
  if total_weight = 0 then
    let equal_prob : ℚ :=
      if all_weights.isEmpty then 0 else 1 / (all_weights.length : ℚ)
    all_weights.map (fun kw => (kw.1, equal_prob))
  else
    all_weights.map (fun kw => (kw.1, kw.2 / total_weight))

/-- The accidental symbol lookup shared by both `display_name` methods
(`models.py` lines 26 and 45). -/
def accSymbol (accidental : Option String) : String :=
  if accidental = some "flat" then "♭"
  else if accidental = some "sharp" then "♯" else ""

/-- `Scale.display_name` (`models.py` lines 25-28). -/
def scale_display_name (s : CatalogItem) : String :=
  s.note ++ accSymbol s.accidental ++ " " ++ (s.type.replace "_" " ")
    ++ " - " ++ toString s.octaves ++ " octave"
    ++ (if s.octaves > 1 then "s" else "")

/-- `Arpeggio.display_name` (`models.py` lines 44-46). -/
def arpeggio_display_name (a : CatalogItem) : String :=
  a.note ++ accSymbol a.accidental ++ " " ++ a.type ++ " arpeggio - "
    ++ toString a.octaves ++ " octaves"

/-- The item-data dict produced by `_build_item_data` (`selector.py`
lines 141-155), plus the `articulation` key that
`generate_practice_set` adds at the end (line 326). -/
structure ItemData where
  type : String
  id : Nat
  display_name : String
  octaves : Int
  target_bpm : Int
  is_weekly_focus : Bool
  articulation : Option String := none
deriving DecidableEq

/-- `_build_item_data` (`selector.py` lines 141-155).  Python's
`item.target_bpm or default_bpm` yields `default_bpm` exactly when the
stored value is `None` or the falsy integer `0`. -/
def _build_item_data (item : CatalogItem) (item_type : String)
    (default_bpm : Int) (is_focus : Bool) : ItemData where
  type := item_type
  id := item.id
  display_name :=
    if item_type = "scale" then scale_display_name item
    else arpeggio_display_name item
  octaves := item.octaves
  target_bpm :=
    match item.target_bpm with
    | none => default_bpm
    | some b => if b = 0 then default_bpm else b
  is_weekly_focus := is_focus
  articulation := none

/-- The `(category, id)` identity of a generated item. -/
def itemKey (d : ItemData) : String × Nat := (d.type, d.id)

/-- The weight computed for one catalog item inside
`_get_all_weighted_items` (`selector.py` lines 184-187 and 210-213): the
base §4.1 weight, halved when `octave_variety` is set and the item's
octave count is already in `used_octaves`. -/
def entryWeight (stats : String → Nat → Nat × Option Int)
    (weighting_config : WeightingConfig)
    (octave_variety : Bool) (used_octaves : List Int) (category : String)
    (s : CatalogItem) : ℚ :=
  let ps := stats category s.id
  let weight := calculate_item_weight s.weight ps.1 ps.2 weighting_config
  if octave_variety ∧ s.octaves ∈ used_octaves then weight * (1 / 2)
  else weight

/-- The focus classification of one catalog item inside
`_get_all_weighted_items` (`selector.py` lines 189-197 and 215-223). -/
def isFocusItem (wf_enabled : Bool) (wf_keys wf_types wf_categories : List String)
    (category : String) (s : CatalogItem) : Bool :=
  let matches_category : Bool :=
    wf_categories.isEmpty || wf_categories.contains category
  let has_key_or_type_criteria : Bool :=
    !(wf_keys.isEmpty && wf_types.isEmpty)
  let matches_key_or_type : Bool :=
    wf_keys.contains s.note || wf_types.contains s.type
  wf_enabled && matches_category
    && (!has_key_or_type_criteria || matches_key_or_type)

/-- The per-category loop of `_get_all_weighted_items` (`selector.py`
lines 180-203 for scales; lines 206-229 repeat it verbatim for
arpeggios with the other default BPM).  Items are processed in table
order; each non-excluded item lands in the focus or the non-focus
pool. -/
def process_items (stats : String → Nat → Nat × Option Int)
    (weighting_config : WeightingConfig)
    (octave_variety : Bool) (used_octaves : List Int) (default_bpm : Int)
    (wf_enabled : Bool) (wf_keys wf_types wf_categories : List String)
    (excluded : List (String × Nat)) (category : String) :
    List CatalogItem → List (ItemData × ℚ) × List (ItemData × ℚ)
  | [] => ([], [])
  | s :: rest =>
    let tail := process_items stats weighting_config octave_variety used_octaves
      default_bpm wf_enabled wf_keys wf_types wf_categories excluded category rest
    if excluded.contains (category, s.id) then tail
    else
      let weight := entryWeight stats weighting_config octave_variety
        used_octaves category s
      let is_focus := isFocusItem wf_enabled wf_keys wf_types wf_categories
        category s
      let item_data := _build_item_data s category default_bpm is_focus
      if is_focus then ((item_data, weight) :: tail.1, tail.2)
      else (tail.1, (item_data, weight) :: tail.2)

/-- `_get_all_weighted_items` (`selector.py` lines 158-231): enabled
scales then enabled arpeggios, split into focus and non-focus pools. -/
def _get_all_weighted_items (db : DB) (weighting_config : WeightingConfig)
    (octave_variety : Bool) (used_octaves : List Int)
    (default_scale_bpm default_arpeggio_bpm : Int) (wf_enabled : Bool)
    (wf_keys wf_types wf_categories : List String)
    (excluded_ids : List (String × Nat)) :
    List (ItemData × ℚ) × List (ItemData × ℚ) :=
  let s := process_items db.stats weighting_config octave_variety used_octaves
    default_scale_bpm wf_enabled wf_keys wf_types wf_categories excluded_ids
    "scale" (db.scales.filter (·.enabled))
  let a := process_items db.stats weighting_config octave_variety used_octaves
    default_arpeggio_bpm wf_enabled wf_keys wf_types wf_categories excluded_ids
    "arpeggio" (db.arpeggios.filter (·.enabled))
  (s.1 ++ a.1, s.2 ++ a.2)

/-- Python's built-in `round`, round-half-to-even, on exact rationals. -/
def pyRound (q : ℚ) : Int :=
  if q - ⌊q⌋ < 1 / 2 then ⌊q⌋
  else if q - ⌊q⌋ > 1 / 2 then ⌊q⌋ + 1
  else if ⌊q⌋ % 2 = 0 then ⌊q⌋ else ⌊q⌋ + 1

/-- `random.shuffle` modelled as the oracle-determined permutation that
repeatedly extracts the element at index `g fuel % length`: exactly the
permutations of the input are reachable. -/
def shuffleLoop (g : Nat → Nat) : Nat → List ItemData → List ItemData
  | 0, _ => []
  | fuel + 1, l =>
    if l.isEmpty then []
    else
      let idx := g fuel % l.length
      match l[idx]? with
      | none => []
      | some x => x :: shuffleLoop g fuel (l.eraseIdx idx)

/-- `random.shuffle(selected_items)` (`selector.py` line 324). -/
def shuffle (g : Nat → Nat) (l : List ItemData) : List ItemData :=
  shuffleLoop g l.length l

/-- The articulation-assignment loop (`selector.py` lines 325-328): one
independent `random.random()` draw per item, in list order. -/
def assignArticulation (artic : Nat → ℚ) (slurred_percent : ℚ) :
    Nat → List ItemData → List ItemData
  | _, [] => []
  | n, item :: rest =>
    let a : String :=
      if artic n * 100 < slurred_percent then "slurred" else "separate"
    { item with articulation := some a }
      :: assignArticulation artic slurred_percent (n + 1) rest

/-- All random draws consumed by one `generate_practice_set` call: the
oracles of the (up to) three `weighted_random_choice` calls, the shuffle
oracle, and the articulation draws. -/
structure GenRng where
  phase1 : Rng
  phase2 : Rng
  phase3 : Rng
  shuffleR : Nat → Nat
  artic : Nat → ℚ

/-- `total_items` as read and coerced by `generate_practice_set`
(`selector.py` lines 246-248): config value defaulting to 5, with
non-positive values coerced back to 5. -/
def effectiveTotalItems (db : DB) : Int :=
  let t := (get_algorithm_config db).total_items.getD 5
  if t ≤ 0 then 5 else t

/-- `octave_variety` as read on line 249. -/
def octaveVariety (db : DB) : Bool :=
  (get_algorithm_config db).octave_variety.getD true

/-- The `weighting` sub-config as read on line 250. -/
def weightingOf (db : DB) : WeightingConfig :=
  (get_algorithm_config db).weighting.getD {}

/-- `default_scale_bpm` as read on line 251. -/
def defaultScaleBpm (db : DB) : Int :=
  (get_algorithm_config db).default_scale_bpm.getD 60

/-- `default_arpeggio_bpm` as read on line 252. -/
def defaultArpeggioBpm (db : DB) : Int :=
  (get_algorithm_config db).default_arpeggio_bpm.getD 72

/-- The `weekly_focus` sub-config as read on line 253. -/
def weeklyFocusOf (db : DB) : WeeklyFocusConfig :=
  (get_algorithm_config db).weekly_focus.getD {}

/-- `wf_enabled` as read on line 254. -/
def wfEnabled (db : DB) : Bool := (weeklyFocusOf db).enabled.getD false

/-- `wf_keys` as read on line 255. -/
def wfKeys (db : DB) : List String := (weeklyFocusOf db).keys.getD []

/-- `wf_types` as read on line 256. -/
def wfTypes (db : DB) : List String := (weeklyFocusOf db).types.getD []

/-- `wf_categories` as read on line 257. -/
def wfCategories (db : DB) : List String :=
  (weeklyFocusOf db).categories.getD []

/-- `wf_probability` as read on line 258. -/
def wfProbability (db : DB) : ℚ :=
  (weeklyFocusOf db).probability_increase.getD 80

/-- `slurred_percent` as read on line 260. -/
def slurredPercent (db : DB) : ℚ :=
  (get_algorithm_config db).slurred_percent.getD 50

/-- The branch condition of line 279:
`wf_enabled and (wf_keys or wf_types or wf_categories)`. -/
def wfActive (db : DB) : Bool :=
  wfEnabled db && (!(wfKeys db).isEmpty || !(wfTypes db).isEmpty
    || !(wfCategories db).isEmpty)

/-- The single pool-building call of `generate_practice_set`
(`selector.py` lines 266-277): note `used_octaves` is the still-empty
list bound on line 263, and no `excluded_ids` are passed. -/
def genPools (db : DB) : List (ItemData × ℚ) × List (ItemData × ℚ) :=
  _get_all_weighted_items db (weightingOf db) (octaveVariety db) []
    (defaultScaleBpm db) (defaultArpeggioBpm db) (wfEnabled db)
    (wfKeys db) (wfTypes db) (wfCategories db) []

/-- `focus_slots` (`selector.py` line 281):
`round(total_items * wf_probability / 100)`. -/
def focusSlots (db : DB) : Int :=
  pyRound ((effectiveTotalItems db : ℚ) * wfProbability db / 100)

/-- `focus_selections` of Phase 1 (`selector.py` line 285). -/
def focusSelections (db : DB) (g : GenRng) : List ItemData :=
  weighted_random_choice g.phase1 (genPools db).1 (focusSlots db)

/-- `available_non_focus` (`selector.py` lines 294-296): the non-focus
pool minus the ids selected in Phase 1. -/
def availableNonFocus (db : DB) (g : GenRng) : List (ItemData × ℚ) :=
  (genPools db).2.filter
    (fun dw => !((focusSelections db g).map itemKey).contains (itemKey dw.1))

/-- `non_focus_selections` of Phase 2 (`selector.py` line 297). -/
def nonFocusSelections (db : DB) (g : GenRng) : List ItemData :=
  weighted_random_choice g.phase2 (availableNonFocus db g)
    (effectiveTotalItems db - focusSlots db)

/-- `selected_items` after Phases 1 and 2 (`selector.py` lines 286-301). -/
def selectedAfterPhase2 (db : DB) (g : GenRng) : List ItemData :=
  focusSelections db g ++ nonFocusSelections db g

/-- `all_remaining` of the Phase-3 fallback (`selector.py` lines
307-311): both pools minus all already-selected ids. -/
def allRemaining (db : DB) (g : GenRng) : List (ItemData × ℚ) :=
  ((genPools db).1 ++ (genPools db).2).filter
    (fun dw => !((selectedAfterPhase2 db g).map itemKey).contains (itemKey dw.1))

/-- `selected_items` as of `selector.py` line 324: the weekly-focus slot
allocation of lines 279-315 when the branch condition of line 279 holds,
otherwise the standard single sample over all items of lines 316-322. -/
def selectedItems (db : DB) (g : GenRng) : List ItemData :=
  if wfActive db then
    if ((selectedAfterPhase2 db g).length : Int) < effectiveTotalItems db then
      selectedAfterPhase2 db g
        ++ weighted_random_choice g.phase3 (allRemaining db g)
          (effectiveTotalItems db - (selectedAfterPhase2 db g).length)
    else selectedAfterPhase2 db g
  else
    weighted_random_choice g.phase1 ((genPools db).1 ++ (genPools db).2)
      (effectiveTotalItems db)

/-- `generate_practice_set` (`selector.py` lines 234-330), driven by the
oracle `g`.  The config reads of lines 244-260 are the accessor
definitions above; the phase locals of lines 281-322 are the definitions
just above; the mutation of `used_octaves` after each selection (lines
288, 300, 315, 322) affects nothing later in the call — the pools were
already built — and therefore has no counterpart here. -/
def generate_practice_set (db : DB) (g : GenRng) : List ItemData :=
  assignArticulation g.artic (slurredPercent db) 0
    (shuffle g.shuffleR (selectedItems db g))

/-- The number of enabled catalog items in the snapshot. -/
def enabledCount (db : DB) : Nat :=
  (db.scales.filter (·.enabled)).length + (db.arpeggios.filter (·.enabled)).length

/-- The `(category, id)` keys of a weighted pool, in pool order. -/
def poolKeys (l : List (ItemData × ℚ)) : List (String × Nat) :=
  l.map (fun dw => itemKey dw.1)

lemma walkIdx_zero_or_lt {α : Type} :
    ∀ (l : List (α × ℚ)) (r cum : ℚ) (i : Nat),
      walkIdx l r cum i = 0 ∨ walkIdx l r cum i < i + l.length := by
  intro l
  induction l with
  | nil => intro r cum i; left; rfl
  | cons hd tl ih =>
    intro r cum i
    rw [walkIdx]
    split
    · right; simp
    · rcases ih r (cum + hd.2) (i + 1) with h | h
      · left; exact h
      · right; simpa [Nat.add_assoc, Nat.add_comm 1] using h

lemma walkIdx_lt_length {α : Type} (l : List (α × ℚ)) (r : ℚ)
    (h : l ≠ []) : walkIdx l r 0 0 < l.length := by
  rcases walkIdx_zero_or_lt l r 0 0 with h0 | hlt
  · rw [h0]; exact List.length_pos.mpr h
  · simpa using hlt

/-- One unfolding of the selection loop on a non-empty pool: some valid
index is chosen, its payload emitted, and the loop continues on the pool
with that entry removed. -/
lemma wrcLoop_cons {α : Type} (g : Rng) (fuel n : Nat)
    (remaining : List (α × ℚ)) (h : remaining ≠ []) :
    ∃ idx pw, idx < remaining.length ∧ remaining[idx]? = some pw ∧
      wrcLoop g (fuel + 1) n remaining
        = pw.1 :: wrcLoop g fuel (n + 1) (remaining.eraseIdx idx) := by
  have hlen : 0 < remaining.length := List.length_pos.mpr h
  have hne : remaining.isEmpty = false := by simp [h]
  set idx := if (remaining.map Prod.snd).sum ≤ 0
      then g.randint n % remaining.length
      else walkIdx remaining (g.uniform n) 0 0 with hidx
  have hlt : idx < remaining.length := by
    rw [hidx]
    split
    · exact Nat.mod_lt _ hlen
    · exact walkIdx_lt_length remaining (g.uniform n) h
  have hpw : remaining[idx]? = some remaining[idx] :=
    List.getElem?_eq_getElem hlt
  refine ⟨idx, remaining[idx], hlt, hpw, ?_⟩
  rw [wrcLoop]
  simp only [hne, Bool.false_eq_true, if_false, ← hidx, hpw]

lemma length_wrcLoop {α : Type} (g : Rng) :
    ∀ (fuel n : Nat) (l : List (α × ℚ)),
      (wrcLoop g fuel n l).length = min fuel l.length := by
  intro fuel
  induction fuel with
  | zero => intro n l; simp [wrcLoop]
  | succ fuel ih =>
    intro n l
    by_cases h : l = []
    · subst h; simp [wrcLoop]
    · obtain ⟨idx, pw, hlt, _, heq⟩ := wrcLoop_cons g fuel n l h
      rw [heq]
      have hel : (l.eraseIdx idx).length + 1 = l.length :=
        List.length_eraseIdx_add_one hlt
      simp only [List.length_cons, ih]
      omega

/-- Removing the element at a valid index is removing one occurrence: the
list is a permutation of that element consed onto the erasure. -/
lemma perm_cons_eraseIdx {α : Type} :
    ∀ (l : List α) (i : Nat) (x : α), l[i]? = some x →
      l.Perm (x :: l.eraseIdx i) := by
  intro l
  induction l with
  | nil => intro i x h; simp at h
  | cons hd tl ih =>
    intro i x h
    cases i with
    | zero =>
      simp only [List.getElem?_cons_zero, Option.some.injEq] at h
      subst h
      simp [List.eraseIdx]
    | succ j =>
      simp only [List.getElem?_cons_succ] at h
      have ihj := ih j x h
      have hswap : (hd :: x :: tl.eraseIdx j).Perm (x :: hd :: tl.eraseIdx j) :=
        List.Perm.swap x hd _
      have hmain : (hd :: tl).Perm (x :: hd :: tl.eraseIdx j) :=
        (ihj.cons hd).trans hswap
      simpa [List.eraseIdx_cons_succ] using hmain

lemma subperm_map {α β : Type} (f : α → β) {l₁ l₂ : List α}
    (h : List.Subperm l₁ l₂) : List.Subperm (l₁.map f) (l₂.map f) := by
  obtain ⟨l, hp, hs⟩ := h
  exact ⟨l.map f, hp.map f, hs.map f⟩

lemma nodup_of_subperm {α : Type} {l₁ l₂ : List α}
    (h : List.Subperm l₁ l₂) (hn : l₂.Nodup) : l₁.Nodup := by
  obtain ⟨l, hp, hs⟩ := h
  exact hp.nodup_iff.mp (hn.sublist hs)

lemma wrcLoop_subperm {α : Type} (g : Rng) :
    ∀ (fuel n : Nat) (l : List (α × ℚ)),
      List.Subperm (wrcLoop g fuel n l) (l.map Prod.fst) := by
  intro fuel
  induction fuel with
  | zero => intro n l; simp [wrcLoop, List.nil_subperm]
  | succ fuel ih =>
    intro n l
    by_cases h : l = []
    · subst h; simp [wrcLoop, List.nil_subperm]
    · obtain ⟨idx, pw, _, hpw, heq⟩ := wrcLoop_cons g fuel n l h
      rw [heq]
      have h1 : List.Subperm (wrcLoop g fuel (n + 1) (l.eraseIdx idx))
          ((l.eraseIdx idx).map Prod.fst) := ih (n + 1) (l.eraseIdx idx)
      have h2 : List.Subperm (pw.1 :: wrcLoop g fuel (n + 1) (l.eraseIdx idx))
          (pw.1 :: (l.eraseIdx idx).map Prod.fst) :=
        (List.subperm_cons pw.1).mpr h1
      have h3 : (pw.1 :: (l.eraseIdx idx).map Prod.fst).Perm (l.map Prod.fst) :=
        ((perm_cons_eraseIdx l idx pw hpw).map Prod.fst).symm
      exact h2.trans h3.subperm

lemma length_weighted_random_choice {α : Type} (g : Rng)
    (items : List (α × ℚ)) (count : Int) :
    (weighted_random_choice g items count).length
      = min count.toNat items.length := by
  rw [weighted_random_choice]
  split
  · rename_i h
    rcases h with h | h
    · rw [List.isEmpty_iff] at h
      simp [h]
    · have hc : count.toNat = 0 := by omega
      simp [hc]
  · rw [length_wrcLoop]
    omega

lemma weighted_random_choice_subperm {α : Type} (g : Rng)
    (items : List (α × ℚ)) (count : Int) :
    List.Subperm (weighted_random_choice g items count) (items.map Prod.fst) := by
  rw [weighted_random_choice]
  split
  · exact List.nil_subperm
  · exact wrcLoop_subperm g _ 0 items

lemma mem_of_weighted_random_choice {α : Type} {g : Rng}
    {items : List (α × ℚ)} {count : Int} {x : α}
    (hx : x ∈ weighted_random_choice g items count) :
    x ∈ items.map Prod.fst :=
  (weighted_random_choice_subperm g items count).subset hx

lemma shuffleLoop_perm (g : Nat → Nat) :
    ∀ (fuel : Nat) (l : List ItemData), l.length ≤ fuel →
      (shuffleLoop g fuel l).Perm l := by
  intro fuel
  induction fuel with
  | zero =>
    intro l hl
    have : l = [] := List.length_eq_zero.mp (Nat.le_zero.mp hl)
    subst this
    simp [shuffleLoop]
  | succ fuel ih =>
    intro l hl
    by_cases h : l = []
    · subst h; simp [shuffleLoop]
    · have hne : l.isEmpty = false := by simp [h]
      have hlen : 0 < l.length := List.length_pos.mpr h
      have hlt : g fuel % l.length < l.length := Nat.mod_lt _ hlen
      have hpw : l[g fuel % l.length]? = some l[g fuel % l.length] :=
        List.getElem?_eq_getElem hlt
      rw [shuffleLoop]
      simp only [hne, Bool.false_eq_true, if_false, hpw]
      have hln : (l.eraseIdx (g fuel % l.length)).length ≤ fuel := by
        have := List.length_eraseIdx_add_one hlt
        omega
      have hrec := ih (l.eraseIdx (g fuel % l.length)) hln
      exact (hrec.cons _).trans (perm_cons_eraseIdx l _ _ hpw).symm

lemma shuffle_perm (g : Nat → Nat) (l : List ItemData) :
    (shuffle g l).Perm l :=
  shuffleLoop_perm g l.length l (Nat.le_refl _)

/-- Assigning articulation rewrites only the `articulation` field: any
projection that ignores that field is preserved pointwise. -/
lemma assignArticulation_map {β : Type} (f : ItemData → β)
    (hf : ∀ (item : ItemData) (a : Option String),
      f { item with articulation := a } = f item)
    (artic : Nat → ℚ) (sp : ℚ) :
    ∀ (n : Nat) (l : List ItemData),
      (assignArticulation artic sp n l).map f = l.map f := by
  intro n l
  induction l generalizing n with
  | nil => simp [assignArticulation]
  | cons hd tl ih => simp [assignArticulation, hf, ih]

lemma length_assignArticulation (artic : Nat → ℚ) (sp : ℚ) :
    ∀ (n : Nat) (l : List ItemData),
      (assignArticulation artic sp n l).length = l.length := by
  intro n l
  induction l generalizing n with
  | nil => simp [assignArticulation]
  | cons hd tl ih => simp [assignArticulation, ih]

lemma pyRound_nonneg {q : ℚ} (h : 0 ≤ q) : 0 ≤ pyRound q := by
  have hfl : (0 : ℤ) ≤ ⌊q⌋ := Int.floor_nonneg.mpr h
  rw [pyRound]
  split
  · exact hfl
  · split
    · omega
    · split
      · exact hfl
      · omega

lemma pyRound_le_int {q : ℚ} {t : ℤ} (h : q ≤ (t : ℚ)) : pyRound q ≤ t := by
  have hfl : ⌊q⌋ ≤ t := by
    have := Int.floor_le_floor h
    simpa using this
  have hfq : (⌊q⌋ : ℚ) ≤ q := Int.floor_le q
  rw [pyRound]
  split
  · exact hfl
  · rename_i h1
    push_neg at h1
    have hlt : ⌊q⌋ < t := by
      by_contra hc
      push_neg at hc
      have ht : t = ⌊q⌋ := le_antisymm hc hfl
      subst ht
      have : q - (⌊q⌋ : ℚ) ≤ 0 := by
        have : q ≤ (⌊q⌋ : ℚ) := by exact_mod_cast h
        linarith
      linarith
    split
    · omega
    · split
      · exact hfl
      · omega

lemma itemKey_build (s : CatalogItem) (cat : String) (bpm : Int) (f : Bool) :
    itemKey (_build_item_data s cat bpm f) = (cat, s.id) := rfl

lemma is_weekly_focus_build (s : CatalogItem) (cat : String) (bpm : Int)
    (f : Bool) : (_build_item_data s cat bpm f).is_weekly_focus = f := rfl

lemma process_items_keys (st : String → Nat → Nat × Option Int)
    (wc : WeightingConfig) (ov : Bool)
    (uo : List Int) (bpm : Int) (wfe : Bool) (wfk wft wfc : List String)
    (exc : List (String × Nat)) (cat : String) :
    ∀ l : List CatalogItem,
      (poolKeys (process_items st wc ov uo bpm wfe wfk wft wfc exc cat l).1
        ++ poolKeys (process_items st wc ov uo bpm wfe wfk wft wfc exc cat l).2).Perm
      ((l.filter (fun s => !exc.contains (cat, s.id))).map (fun s => (cat, s.id))) := by
  intro l
  induction l with
  | nil => simp [process_items, poolKeys]
  | cons s rest ih =>
    simp only [process_items]
    by_cases hex : (cat, s.id) ∈ exc
    · have hc : exc.contains (cat, s.id) = true := by simp [hex]
      simp only [hc, if_true]
      simpa [List.filter_cons, hex] using ih
    · have hc : exc.contains (cat, s.id) = false := by simp [hex]
      simp only [hc, Bool.false_eq_true, if_false, List.filter_cons,
        Bool.not_false, if_true]
      by_cases hf : isFocusItem wfe wfk wft wfc cat s = true
      · simp only [hf, if_true, poolKeys, List.map_cons, List.cons_append,
          itemKey_build]
        exact ih.cons (cat, s.id)
      · rw [Bool.not_eq_true] at hf
        simp only [hf, Bool.false_eq_true, if_false, poolKeys, List.map_cons,
          itemKey_build]
        exact List.perm_middle.trans (ih.cons (cat, s.id))

lemma process_items_flags (st : String → Nat → Nat × Option Int)
    (wc : WeightingConfig) (ov : Bool)
    (uo : List Int) (bpm : Int) (wfe : Bool) (wfk wft wfc : List String)
    (exc : List (String × Nat)) (cat : String) :
    ∀ l : List CatalogItem,
      (∀ dw ∈ (process_items st wc ov uo bpm wfe wfk wft wfc exc cat l).1,
        dw.1.is_weekly_focus = true) ∧
      (∀ dw ∈ (process_items st wc ov uo bpm wfe wfk wft wfc exc cat l).2,
        dw.1.is_weekly_focus = false) := by
  intro l
  induction l with
  | nil => simp [process_items]
  | cons s rest ih =>
    simp only [process_items]
    by_cases hex : (cat, s.id) ∈ exc
    · have hc : exc.contains (cat, s.id) = true := by simp [hex]
      simpa only [hc, if_true] using ih
    · have hc : exc.contains (cat, s.id) = false := by simp [hex]
      simp only [hc, Bool.false_eq_true, if_false]
      by_cases hf : isFocusItem wfe wfk wft wfc cat s = true
      · simp only [hf, if_true]
        refine ⟨?_, ih.2⟩
        intro dw hdw
        rcases List.mem_cons.mp hdw with hdw | hdw
        · subst hdw
          rfl
        · exact ih.1 dw hdw
      · rw [Bool.not_eq_true] at hf
        simp only [hf, Bool.false_eq_true, if_false]
        refine ⟨ih.1, ?_⟩
        intro dw hdw
        rcases List.mem_cons.mp hdw with hdw | hdw
        · subst hdw
          rfl
        · exact ih.2 dw hdw

/-- The `(category, id)` keys of the enabled scales, in table order. -/
def scaleKeys (db : DB) : List (String × Nat) :=
  (db.scales.filter (·.enabled)).map (fun s => ("scale", s.id))

/-- The `(category, id)` keys of the enabled arpeggios, in table order. -/
def arpeggioKeys (db : DB) : List (String × Nat) :=
  (db.arpeggios.filter (·.enabled)).map (fun s => ("arpeggio", s.id))

lemma append_append_perm {α : Type} (A B C D : List α) :
    ((A ++ B) ++ (C ++ D)).Perm ((A ++ C) ++ (B ++ D)) := by
  have hinner : (B ++ (C ++ D)).Perm (C ++ (B ++ D)) := by
    have h1 : (B ++ C).Perm (C ++ B) := List.perm_append_comm
    have h2 : ((B ++ C) ++ D).Perm ((C ++ B) ++ D) := h1.append_right D
    simpa [List.append_assoc] using h2
  have := hinner.append_left A
  simpa [List.append_assoc] using this

lemma genPools_keys_perm (db : DB) :
    (poolKeys (genPools db).1 ++ poolKeys (genPools db).2).Perm
      (scaleKeys db ++ arpeggioKeys db) := by
  have hsc := process_items_keys db.stats (weightingOf db) (octaveVariety db) []
    (defaultScaleBpm db) (wfEnabled db) (wfKeys db) (wfTypes db)
    (wfCategories db) [] "scale" (db.scales.filter (·.enabled))
  have har := process_items_keys db.stats (weightingOf db) (octaveVariety db) []
    (defaultArpeggioBpm db) (wfEnabled db) (wfKeys db) (wfTypes db)
    (wfCategories db) [] "arpeggio" (db.arpeggios.filter (·.enabled))
  simp only [List.contains_nil, Bool.not_false, List.filter_true] at hsc har
  have hshuffle := append_append_perm
    (poolKeys (process_items db.stats (weightingOf db) (octaveVariety db) []
      (defaultScaleBpm db) (wfEnabled db) (wfKeys db) (wfTypes db)
      (wfCategories db) [] "scale" (db.scales.filter (·.enabled))).1)
    (poolKeys (process_items db.stats (weightingOf db) (octaveVariety db) []
      (defaultArpeggioBpm db) (wfEnabled db) (wfKeys db) (wfTypes db)
      (wfCategories db) [] "arpeggio" (db.arpeggios.filter (·.enabled))).1)
    (poolKeys (process_items db.stats (weightingOf db) (octaveVariety db) []
      (defaultScaleBpm db) (wfEnabled db) (wfKeys db) (wfTypes db)
      (wfCategories db) [] "scale" (db.scales.filter (·.enabled))).2)
    (poolKeys (process_items db.stats (weightingOf db) (octaveVariety db) []
      (defaultArpeggioBpm db) (wfEnabled db) (wfKeys db) (wfTypes db)
      (wfCategories db) [] "arpeggio" (db.arpeggios.filter (·.enabled))).2)
  have hcombined := hshuffle.trans (hsc.append har)
  simpa [genPools, _get_all_weighted_items, poolKeys, scaleKeys,
    arpeggioKeys] using hcombined

lemma catalog_keys_nodup (db : DB)
    (hs : (db.scales.map (fun s => s.id)).Nodup)
    (ha : (db.arpeggios.map (fun s => s.id)).Nodup) :
    (scaleKeys db ++ arpeggioKeys db).Nodup := by
  rw [List.nodup_append]
  refine ⟨?_, ?_, ?_⟩
  · rw [scaleKeys, show (fun s : CatalogItem => (("scale" : String), s.id))
      = (fun i => (("scale" : String), i)) ∘ (fun s : CatalogItem => s.id)
      from rfl, ← List.map_map]
    refine List.Nodup.map ?_ ?_
    · intro a b hab
      simpa using hab
    · exact ((List.filter_sublist _).map _).nodup hs
  · rw [arpeggioKeys, show (fun s : CatalogItem => (("arpeggio" : String), s.id))
      = (fun i => (("arpeggio" : String), i)) ∘ (fun s : CatalogItem => s.id)
      from rfl, ← List.map_map]
    refine List.Nodup.map ?_ ?_
    · intro a b hab
      simpa using hab
    · exact ((List.filter_sublist _).map _).nodup ha
  · intro k hk1 hk2
    rw [scaleKeys, List.mem_map] at hk1
    rw [arpeggioKeys, List.mem_map] at hk2
    obtain ⟨s1, _, h1⟩ := hk1
    obtain ⟨a1, _, h2⟩ := hk2
    rw [← h1] at h2
    simp at h2

lemma genPools_keys_nodup (db : DB)
    (hs : (db.scales.map (fun s => s.id)).Nodup)
    (ha : (db.arpeggios.map (fun s => s.id)).Nodup) :
    (poolKeys (genPools db).1 ++ poolKeys (genPools db).2).Nodup :=
  (genPools_keys_perm db).nodup_iff.mpr (catalog_keys_nodup db hs ha)

lemma genPools_length (db : DB) :
    (genPools db).1.length + (genPools db).2.length = enabledCount db := by
  have := (genPools_keys_perm db).length_eq
  simpa [poolKeys, scaleKeys, arpeggioKeys, enabledCount] using this

lemma genPools_flags (db : DB) :
    (∀ dw ∈ (genPools db).1, dw.1.is_weekly_focus = true) ∧
    (∀ dw ∈ (genPools db).2, dw.1.is_weekly_focus = false) := by
  have hsc := process_items_flags db.stats (weightingOf db) (octaveVariety db) []
    (defaultScaleBpm db) (wfEnabled db) (wfKeys db) (wfTypes db)
    (wfCategories db) [] "scale" (db.scales.filter (·.enabled))
  have har := process_items_flags db.stats (weightingOf db) (octaveVariety db) []
    (defaultArpeggioBpm db) (wfEnabled db) (wfKeys db) (wfTypes db)
    (wfCategories db) [] "arpeggio" (db.arpeggios.filter (·.enabled))
  constructor
  · intro dw hdw
    rw [genPools, _get_all_weighted_items] at hdw
    simp only [List.mem_append] at hdw
    rcases hdw with hdw | hdw
    · exact hsc.1 dw hdw
    · exact har.1 dw hdw
  · intro dw hdw
    rw [genPools, _get_all_weighted_items] at hdw
    simp only [List.mem_append] at hdw
    rcases hdw with hdw | hdw
    · exact hsc.2 dw hdw
    · exact har.2 dw hdw

lemma wrc_keys_subperm (g : Rng) (pool : List (ItemData × ℚ)) (k : Int) :
    List.Subperm ((weighted_random_choice g pool k).map itemKey)
      (poolKeys pool) := by
  have h := subperm_map itemKey (weighted_random_choice_subperm g pool k)
  simpa [poolKeys, List.map_map, Function.comp] using h

lemma effectiveTotalItems_pos (db : DB) : 1 ≤ effectiveTotalItems db := by
  simp only [effectiveTotalItems]
  split <;> omega

lemma focusSlots_nonneg (db : DB) (hp0 : 0 ≤ wfProbability db) :
    0 ≤ focusSlots db := by
  apply pyRound_nonneg
  have ht : (1 : ℤ) ≤ effectiveTotalItems db := effectiveTotalItems_pos db
  have ht' : (0 : ℚ) ≤ (effectiveTotalItems db : ℚ) := by
    have h0 : (0 : ℤ) ≤ effectiveTotalItems db := by omega
    exact_mod_cast h0
  exact div_nonneg (mul_nonneg ht' hp0) (by norm_num)

lemma focusSlots_le (db : DB) (hp0 : 0 ≤ wfProbability db)
    (hp1 : wfProbability db ≤ 100) :
    focusSlots db ≤ effectiveTotalItems db := by
  apply pyRound_le_int
  have ht : (1 : ℤ) ≤ effectiveTotalItems db := effectiveTotalItems_pos db
  have ht' : (0 : ℚ) ≤ (effectiveTotalItems db : ℚ) := by
    have h0 : (0 : ℤ) ≤ effectiveTotalItems db := by omega
    exact_mod_cast h0
  calc (effectiveTotalItems db : ℚ) * wfProbability db / 100
      ≤ (effectiveTotalItems db : ℚ) * 100 / 100 := by gcongr
    _ = (effectiveTotalItems db : ℚ) := by ring

lemma selectedAfterPhase2_keys_nodup (db : DB) (g : GenRng)
    (hs : (db.scales.map (fun s => s.id)).Nodup)
    (ha : (db.arpeggios.map (fun s => s.id)).Nodup) :
    ((selectedAfterPhase2 db g).map itemKey).Nodup := by
  have hpools := genPools_keys_nodup db hs ha
  rw [List.nodup_append] at hpools
  obtain ⟨hn1, hn2, _⟩ := hpools
  have hk1 : ((focusSelections db g).map itemKey).Nodup :=
    nodup_of_subperm (wrc_keys_subperm g.phase1 _ _) hn1
  have hsub : List.Sublist (poolKeys (availableNonFocus db g))
      (poolKeys (genPools db).2) := (List.filter_sublist _).map _
  have hk2 : ((nonFocusSelections db g).map itemKey).Nodup :=
    nodup_of_subperm (wrc_keys_subperm g.phase2 _ _) (hn2.sublist hsub)
  have hdisj : ∀ a ∈ (focusSelections db g).map itemKey,
      a ∈ (nonFocusSelections db g).map itemKey → False := by
    intro a ha1 ha2
    rw [List.mem_map] at ha2
    obtain ⟨x, hx, rfl⟩ := ha2
    have hx' : x ∈ (availableNonFocus db g).map Prod.fst :=
      mem_of_weighted_random_choice hx
    rw [List.mem_map] at hx'
    obtain ⟨dw, hdw, rfl⟩ := hx'
    have hnotin := (List.mem_filter.mp hdw).2
    exact absurd ha1 (by simpa using hnotin)
  rw [selectedAfterPhase2, List.map_append, List.nodup_append]
  exact ⟨hk1, hk2, fun a h1 h2 => hdisj a h1 h2⟩

lemma focusSelections_keys_subperm (db : DB) (g : GenRng) :
    List.Subperm ((focusSelections db g).map itemKey)
      (poolKeys (genPools db).1) := by
  rw [focusSelections]
  exact wrc_keys_subperm _ _ _

lemma length_focusSelections (db : DB) (g : GenRng) :
    (focusSelections db g).length
      = min (focusSlots db).toNat (genPools db).1.length := by
  rw [focusSelections]
  exact length_weighted_random_choice _ _ _

lemma length_nonFocusSelections (db : DB) (g : GenRng) :
    (nonFocusSelections db g).length
      = min (effectiveTotalItems db - focusSlots db).toNat
          (availableNonFocus db g).length := by
  rw [nonFocusSelections]
  exact length_weighted_random_choice _ _ _

lemma selectedAfterPhase2_length_le (db : DB) (g : GenRng)
    (hp0 : 0 ≤ wfProbability db) (hp1 : wfProbability db ≤ 100) :
    ((selectedAfterPhase2 db g).length : Int) ≤ effectiveTotalItems db := by
  have h1 := length_focusSelections db g
  have h2 := length_nonFocusSelections db g
  have hfs0 := focusSlots_nonneg db hp0
  have hfs1 := focusSlots_le db hp0 hp1
  rw [selectedAfterPhase2, List.length_append]
  omega

lemma selectedItems_keys_nodup (db : DB) (g : GenRng)
    (hs : (db.scales.map (fun s => s.id)).Nodup)
    (ha : (db.arpeggios.map (fun s => s.id)).Nodup) :
    ((selectedItems db g).map itemKey).Nodup := by
  have hpools := genPools_keys_nodup db hs ha
  have hpk : (poolKeys ((genPools db).1 ++ (genPools db).2)).Nodup := by
    simpa [poolKeys] using hpools
  rw [selectedItems]
  by_cases hwf : wfActive db = true
  · simp only [hwf, if_true]
    by_cases hlt : ((selectedAfterPhase2 db g).length : Int) < effectiveTotalItems db
    · rw [if_pos hlt, List.map_append, List.nodup_append]
      refine ⟨selectedAfterPhase2_keys_nodup db g hs ha, ?_, ?_⟩
      · have hsub : List.Sublist (poolKeys (allRemaining db g))
            (poolKeys ((genPools db).1 ++ (genPools db).2)) :=
          (List.filter_sublist _).map _
        exact nodup_of_subperm (wrc_keys_subperm g.phase3 _ _) (hpk.sublist hsub)
      · intro a h1 h2
        rw [List.mem_map] at h2
        obtain ⟨x, hx, rfl⟩ := h2
        have hx' := mem_of_weighted_random_choice hx
        rw [List.mem_map] at hx'
        obtain ⟨dw, hdw, rfl⟩ := hx'
        have hno := (List.mem_filter.mp hdw).2
        exact absurd h1 (by simpa using hno)
    · rw [if_neg hlt]
      exact selectedAfterPhase2_keys_nodup db g hs ha
  · rw [Bool.not_eq_true] at hwf
    simp only [hwf, Bool.false_eq_true, if_false]
    exact nodup_of_subperm (wrc_keys_subperm g.phase1 _ _) hpk

lemma selectedItems_length_le (db : DB) (g : GenRng)
    (hp0 : 0 ≤ wfProbability db) (hp1 : wfProbability db ≤ 100) :
    ((selectedItems db g).length : Int) ≤ effectiveTotalItems db := by
  have h12 := selectedAfterPhase2_length_le db g hp0 hp1
  rw [selectedItems]
  by_cases hwf : wfActive db = true
  · simp only [hwf, if_true]
    by_cases hlt : ((selectedAfterPhase2 db g).length : Int) < effectiveTotalItems db
    · rw [if_pos hlt, List.length_append, length_weighted_random_choice]
      omega
    · rw [if_neg hlt]
      exact h12
  · rw [Bool.not_eq_true] at hwf
    simp only [hwf, Bool.false_eq_true, if_false]
    rw [length_weighted_random_choice]
    have ht := effectiveTotalItems_pos db
    omega

lemma availableNonFocus_eq (db : DB) (g : GenRng)
    (hs : (db.scales.map (fun s => s.id)).Nodup)
    (ha : (db.arpeggios.map (fun s => s.id)).Nodup) :
    availableNonFocus db g = (genPools db).2 := by
  rw [availableNonFocus]
  apply List.filter_eq_self.mpr
  intro dw hdw
  have hpools := genPools_keys_nodup db hs ha
  rw [List.nodup_append] at hpools
  obtain ⟨_, _, hdisj⟩ := hpools
  have hmem2 : itemKey dw.1 ∈ poolKeys (genPools db).2 :=
    List.mem_map_of_mem _ hdw
  have hnot1 : itemKey dw.1 ∉ poolKeys (genPools db).1 :=
    fun hc => hdisj hc hmem2
  have hk1sub := (focusSelections_keys_subperm db g).subset
  have hnotk : itemKey dw.1 ∉ (focusSelections db g).map itemKey :=
    fun hc => hnot1 (hk1sub hc)
  simpa using hnotk

lemma length_filter_not_contains_ge (pool : List (ItemData × ℚ))
    (S : List (String × Nat)) (hpk : (poolKeys pool).Nodup) :
    (pool.length : Int) - S.length
      ≤ ((pool.filter (fun dw => !S.contains (itemKey dw.1))).length : Int) := by
  have hsplit :=
    List.length_eq_length_filter_add (l := pool)
      (fun dw => !S.contains (itemKey dw.1))
  have hbound :
      (pool.filter (fun dw => !(!S.contains (itemKey dw.1)))).length
        ≤ S.length := by
    have hFsub : List.Sublist
        (poolKeys (pool.filter (fun dw => !(!S.contains (itemKey dw.1)))))
        (poolKeys pool) := (List.filter_sublist _).map _
    have hFnodup := hpk.sublist hFsub
    have hFsubset : ∀ k ∈ poolKeys
        (pool.filter (fun dw => !(!S.contains (itemKey dw.1)))), k ∈ S := by
      intro k hk
      rw [poolKeys, List.mem_map] at hk
      obtain ⟨dw, hdw, rfl⟩ := hk
      have hmem := (List.mem_filter.mp hdw).2
      simpa using hmem
    have := (hFnodup.subperm hFsubset).length_le
    simpa [poolKeys] using this
  omega

lemma selectedItems_length_eq (db : DB) (g : GenRng)
    (hs : (db.scales.map (fun s => s.id)).Nodup)
    (ha : (db.arpeggios.map (fun s => s.id)).Nodup)
    (hp0 : 0 ≤ wfProbability db) (hp1 : wfProbability db ≤ 100)
    (hN : effectiveTotalItems db ≤ (enabledCount db : Int)) :
    ((selectedItems db g).length : Int) = effectiveTotalItems db := by
  have hg := genPools_length db
  have h12le := selectedAfterPhase2_length_le db g hp0 hp1
  have h1 := length_focusSelections db g
  have h2 := length_nonFocusSelections db g
  have hav : availableNonFocus db g = (genPools db).2 :=
    availableNonFocus_eq db g hs ha
  rw [selectedItems]
  by_cases hwf : wfActive db = true
  · simp only [hwf, if_true]
    by_cases hlt : ((selectedAfterPhase2 db g).length : Int) < effectiveTotalItems db
    · rw [if_pos hlt, List.length_append, length_weighted_random_choice]
      have hpk : (poolKeys ((genPools db).1 ++ (genPools db).2)).Nodup := by
        simpa [poolKeys] using genPools_keys_nodup db hs ha
      have hrem0 := length_filter_not_contains_ge
        ((genPools db).1 ++ (genPools db).2)
        ((selectedAfterPhase2 db g).map itemKey) hpk
      have hrem : (((genPools db).1 ++ (genPools db).2).length : Int)
          - ((selectedAfterPhase2 db g).map itemKey).length
          ≤ ((allRemaining db g).length : Int) := by
        rw [allRemaining]
        exact hrem0
      have hlenS : ((selectedAfterPhase2 db g).map itemKey).length
          = (selectedAfterPhase2 db g).length := List.length_map _ _
      have hpoollen : ((genPools db).1 ++ (genPools db).2).length
          = enabledCount db := by
        rw [List.length_append]
        exact hg
      omega
    · rw [if_neg hlt]
      omega
  · rw [Bool.not_eq_true] at hwf
    simp only [hwf, Bool.false_eq_true, if_false]
    rw [length_weighted_random_choice]
    have hpoollen : ((genPools db).1 ++ (genPools db).2).length
        = enabledCount db := by
      rw [List.length_append]
      exact hg
    have ht := effectiveTotalItems_pos db
    omega

lemma selectedItems_nil (db : DB) (g : GenRng) (hN : enabledCount db = 0) :
    selectedItems db g = [] := by
  have hg := genPools_length db
  have h1 : (genPools db).1 = [] := List.length_eq_zero.mp (by omega)
  have h2 : (genPools db).2 = [] := List.length_eq_zero.mp (by omega)
  have hfs : focusSelections db g = [] := by
    rw [focusSelections, h1]
    simp [weighted_random_choice]
  have hav : availableNonFocus db g = [] := by
    rw [availableNonFocus, h2]
    rfl
  have hnfs : nonFocusSelections db g = [] := by
    rw [nonFocusSelections, hav]
    simp [weighted_random_choice]
  have h12 : selectedAfterPhase2 db g = [] := by
    rw [selectedAfterPhase2, hfs, hnfs]
    rfl
  have hrem : allRemaining db g = [] := by
    rw [allRemaining, h1, h2]
    rfl
  rw [selectedItems, h12, hrem]
  by_cases hwf : wfActive db = true
  · simp only [hwf, if_true]
    split <;> simp [weighted_random_choice]
  · rw [Bool.not_eq_true] at hwf
    simp only [hwf, Bool.false_eq_true, if_false, h1, h2]
    simp [weighted_random_choice]

lemma countP_assignArticulation (p : ItemData → Bool)
    (hp : ∀ (item : ItemData) (a : Option String),
      p { item with articulation := a } = p item)
    (artic : Nat → ℚ) (sp : ℚ) :
    ∀ (n : Nat) (l : List ItemData),
      (assignArticulation artic sp n l).countP p = l.countP p := by
  intro n l
  induction l generalizing n with
  | nil => simp [assignArticulation]
  | cons hd tl ih => simp [assignArticulation, List.countP_cons, hp, ih]

lemma generate_keys_perm (db : DB) (g : GenRng) :
    ((generate_practice_set db g).map itemKey).Perm
      ((selectedItems db g).map itemKey) := by
  rw [generate_practice_set]
  rw [assignArticulation_map itemKey (fun item a => rfl) g.artic
    (slurredPercent db) 0 (shuffle g.shuffleR (selectedItems db g))]
  exact (shuffle_perm g.shuffleR (selectedItems db g)).map itemKey

lemma length_generate (db : DB) (g : GenRng) :
    (generate_practice_set db g).length = (selectedItems db g).length := by
  rw [generate_practice_set, length_assignArticulation]
  exact (shuffle_perm _ _).length_eq

lemma countP_generate (db : DB) (g : GenRng) (p : ItemData → Bool)
    (hp : ∀ (item : ItemData) (a : Option String),
      p { item with articulation := a } = p item) :
    (generate_practice_set db g).countP p = (selectedItems db g).countP p := by
  rw [generate_practice_set, countP_assignArticulation p hp]
  exact (shuffle_perm _ _).countP_eq p

/-- A practice-stats oracle for concrete examples: never practiced. -/
def exStats : String → Nat → Nat × Option Int := fun _ _ => (0, none)

/-- A concrete enabled scale for witnesses. -/
def exScaleA : CatalogItem :=
  { id := 1, note := "A", type := "major", octaves := 2, enabled := true }

/-- A one-scale snapshot with no persisted config (defaults apply). -/
def exDb1 : DB :=
  { scales := [exScaleA], arpeggios := [], stats := exStats, config := none }

/-- A concrete sampling oracle for witnesses. -/
def exRng : Rng := { uniform := fun _ => 0, randint := fun _ => 0 }

/-- A concrete generation oracle for witnesses. -/
def exGen : GenRng :=
  { phase1 := exRng, phase2 := exRng, phase3 := exRng,
    shuffleR := fun _ => 0, artic := fun _ => 0 }

/-- C1: over any catalog/history/config snapshot (ids unique per table as
the database enforces, `probability_increase` in the 0-100 range the
data model declares), one `generate_practice_set` call selects at most
`total_items` items across all slots and phases, and the returned list
contains no two items with the same `(category, id)` pair. -/
theorem C1_generate_bounded_and_no_dup (db : DB) (g : GenRng)
    (hs : (db.scales.map (fun s => s.id)).Nodup)
    (ha : (db.arpeggios.map (fun s => s.id)).Nodup)
    (hp0 : 0 ≤ wfProbability db) (hp1 : wfProbability db ≤ 100) :
    ((generate_practice_set db g).length : Int) ≤ effectiveTotalItems db
    ∧ ((generate_practice_set db g).map itemKey).Nodup := by
  constructor
  · rw [length_generate]
    exact selectedItems_length_le db g hp0 hp1
  · exact (generate_keys_perm db g).nodup_iff.mpr
      (selectedItems_keys_nodup db g hs ha)

/-- Witness for C1 at a concrete snapshot and oracle. -/
theorem C1_witness :
    ((exDb1.scales.map (fun s => s.id)).Nodup
      ∧ (exDb1.arpeggios.map (fun s => s.id)).Nodup
      ∧ 0 ≤ wfProbability exDb1 ∧ wfProbability exDb1 ≤ 100)
    ∧ ((generate_practice_set exDb1 exGen).length : Int) ≤ effectiveTotalItems exDb1
    ∧ ((generate_practice_set exDb1 exGen).map itemKey).Nodup := by
  have hs : (exDb1.scales.map (fun s => s.id)).Nodup := by
    simp [exDb1, exScaleA]
  have ha : (exDb1.arpeggios.map (fun s => s.id)).Nodup := by
    simp [exDb1]
  have hp : wfProbability exDb1 = 80 := by
    simp [wfProbability, weeklyFocusOf, get_algorithm_config, exDb1,
      DEFAULT_ALGORITHM_CONFIG]
  have hp0 : 0 ≤ wfProbability exDb1 := by rw [hp]; norm_num
  have hp1 : wfProbability exDb1 ≤ 100 := by rw [hp]; norm_num
  exact ⟨⟨hs, ha, hp0, hp1⟩,
    C1_generate_bounded_and_no_dup exDb1 exGen hs ha hp0 hp1⟩

/-- C2: the result never exceeds `total_items`; it reaches `total_items`
whenever at least `total_items` items are enabled (the Phase-3 fallback
over the combined pools guarantees this); and with no enabled items the
result is empty. -/
theorem C2_generate_size (db : DB) (g : GenRng)
    (hs : (db.scales.map (fun s => s.id)).Nodup)
    (ha : (db.arpeggios.map (fun s => s.id)).Nodup)
    (hp0 : 0 ≤ wfProbability db) (hp1 : wfProbability db ≤ 100) :
    ((generate_practice_set db g).length : Int) ≤ effectiveTotalItems db
    ∧ (effectiveTotalItems db ≤ (enabledCount db : Int) →
        ((generate_practice_set db g).length : Int) = effectiveTotalItems db)
    ∧ (enabledCount db = 0 → generate_practice_set db g = []) := by
  refine ⟨?_, ?_, ?_⟩
  · rw [length_generate]
    exact selectedItems_length_le db g hp0 hp1
  · intro hN
    rw [length_generate]
    exact selectedItems_length_eq db g hs ha hp0 hp1 hN
  · intro hN
    rw [generate_practice_set, selectedItems_nil db g hN]
    rfl

/-- Witness for C2 at a concrete snapshot and oracle. -/
theorem C2_witness :
    ((exDb1.scales.map (fun s => s.id)).Nodup
      ∧ (exDb1.arpeggios.map (fun s => s.id)).Nodup
      ∧ 0 ≤ wfProbability exDb1 ∧ wfProbability exDb1 ≤ 100)
    ∧ ((generate_practice_set exDb1 exGen).length : Int) ≤ effectiveTotalItems exDb1 := by
  have hs : (exDb1.scales.map (fun s => s.id)).Nodup := by
    simp [exDb1, exScaleA]
  have ha : (exDb1.arpeggios.map (fun s => s.id)).Nodup := by
    simp [exDb1]
  have hp : wfProbability exDb1 = 80 := by
    simp [wfProbability, weeklyFocusOf, get_algorithm_config, exDb1,
      DEFAULT_ALGORITHM_CONFIG]
  have hp0 : 0 ≤ wfProbability exDb1 := by rw [hp]; norm_num
  have hp1 : wfProbability exDb1 ≤ 100 := by rw [hp]; norm_num
  exact ⟨⟨hs, ha, hp0, hp1⟩,
    (C2_generate_size exDb1 exGen hs ha hp0 hp1).1⟩

/-- C4: the selection weight is
`base_weight * base_multiplier * (1 + days_since / days_factor) /
(practice_count + count_divisor)`, with `days_since` taken as 30 for a
never-practiced item, and with missing weighting fields falling back to
the documented defaults (`base_multiplier` 1, `days_since_practice_factor`
7, `practice_count_divisor` 1). -/
theorem C4_weight_formula (bw : ℚ) (pc : Nat) (d : Int) (wc : WeightingConfig) :
    calculate_item_weight bw pc none wc
      = bw * wc.base_multiplier.getD 1
        * (1 + (30 : ℚ) / wc.days_since_practice_factor.getD 7)
        / ((pc : ℚ) + wc.practice_count_divisor.getD 1)
    ∧ calculate_item_weight bw pc (some d) wc
      = bw * wc.base_multiplier.getD 1
        * (1 + (d : ℚ) / wc.days_since_practice_factor.getD 7)
        / ((pc : ℚ) + wc.practice_count_divisor.getD 1)
    ∧ calculate_item_weight bw pc (some d) {}
      = bw * 1 * (1 + (d : ℚ) / 7) / ((pc : ℚ) + 1) := by
  refine ⟨?_, ?_, ?_⟩ <;> norm_num [calculate_item_weight]

/-- C10: the generated item's `target_bpm` is the stored value only when
it is a nonzero integer; a stored `None` or a stored `0` are both
replaced by the category default (Python `item.target_bpm or
default_bpm`). -/
theorem C10_target_bpm (item : CatalogItem) (cat : String) (bpm : Int)
    (f : Bool) :
    ((item.target_bpm = none ∨ item.target_bpm = some 0) →
      (_build_item_data item cat bpm f).target_bpm = bpm)
    ∧ (∀ b : Int, item.target_bpm = some b → b ≠ 0 →
      (_build_item_data item cat bpm f).target_bpm = b) := by
  constructor
  · rintro (h | h) <;> simp [_build_item_data, h]
  · intro b hb hb0
    simp [_build_item_data, hb, hb0]

/-- Witness for C10: a stored target of 0 is replaced by the default 60,
while a stored target of 90 is kept. -/
theorem C10_witness :
    (_build_item_data { exScaleA with target_bpm := some 0 } "scale" 60 false).target_bpm = 60
    ∧ (_build_item_data { exScaleA with target_bpm := some 90 } "scale" 60 false).target_bpm = 90 :=
  ⟨(C10_target_bpm { exScaleA with target_bpm := some 0 } "scale" 60 false).1
      (Or.inr rfl),
    (C10_target_bpm { exScaleA with target_bpm := some 90 } "scale" 60 false).2
      90 rfl (by decide)⟩

lemma wrcLoop_head_zero_weight {α : Type} (g : Rng) (fuel n : Nat)
    (l : List (α × ℚ)) (hne : l ≠ []) (htot : (l.map Prod.snd).sum ≤ 0) :
    (wrcLoop g (fuel + 1) n l).head?
      = (l[g.randint n % l.length]?).map Prod.fst := by
  have hne' : l.isEmpty = false := by simp [hne]
  have hlen : 0 < l.length := List.length_pos.mpr hne
  have hlt : g.randint n % l.length < l.length := Nat.mod_lt _ hlen
  have hpw := List.getElem?_eq_getElem (l := l) hlt
  rw [wrcLoop]
  simp only [hne', Bool.false_eq_true, if_false]
  rw [if_pos htot, hpw]
  simp

lemma sum_map_const {α : Type} (l : List α) (c : ℚ) :
    (l.map (fun _ => c)).sum = (l.length : ℚ) * c := by
  induction l with
  | nil => simp
  | cons hd tl ih =>
    simp only [List.map_cons, List.sum_cons, ih, List.length_cons]
    push_cast
    ring

lemma length_baselineWeights (db : DB) :
    (baselineWeights db).length = enabledCount db := by
  simp [baselineWeights, enabledCount]

/-- C5: for every integer `k` the sampler returns exactly
`min(k, len(candidates))` payloads when `k >= 0`, and returns the empty
list whenever `k <= 0` — negative `k` included — or the pool is empty;
at ANY draw of the selection loop (any iteration `fuel + 1`, draw index
`n`, current pool `remaining`) whose remaining candidates have
non-positive total weight, the item selected at that draw is the
uniform pick dictated by the `randint` oracle rather than an error (the
last conjunct instantiates this at the first draw); the embedding is a
total function, matching "the sampler never raises". -/
theorem C5_sampler_contract {α : Type} (g : Rng) (items : List (α × ℚ))
    (k : Int) :
    (0 ≤ k → ((weighted_random_choice g items k).length : Int)
        = min k (items.length : Int))
    ∧ (k ≤ 0 ∨ items = [] → weighted_random_choice g items k = [])
    ∧ (∀ (fuel n : Nat) (remaining : List (α × ℚ)), remaining ≠ [] →
        (remaining.map Prod.snd).sum ≤ 0 →
        (wrcLoop g (fuel + 1) n remaining).head?
          = (remaining[g.randint n % remaining.length]?).map Prod.fst)
    ∧ (items ≠ [] → 0 < k → (items.map Prod.snd).sum ≤ 0 →
        (weighted_random_choice g items k).head?
          = (items[g.randint 0 % items.length]?).map Prod.fst) := by
  refine ⟨?_, ?_, ?_, ?_⟩
  · intro hk
    have := length_weighted_random_choice g items k
    omega
  · intro h
    rw [weighted_random_choice, if_pos]
    rcases h with h | h
    · right; exact h
    · left; simp [h]
  · intro fuel n remaining hne htot
    exact wrcLoop_head_zero_weight g fuel n remaining hne htot
  · intro hne h0 htot
    have hne' : items.isEmpty = false := by simp [hne]
    have hlen : 0 < items.length := List.length_pos.mpr hne
    rw [weighted_random_choice, if_neg (by simp [hne']; omega)]
    have hfuel : min k.toNat items.length = (min k.toNat items.length - 1) + 1 := by
      omega
    rw [hfuel]
    exact wrcLoop_head_zero_weight g _ 0 items hne htot

/-- Witness for C5: a negative request on a non-empty pool returns
nothing; an all-zero-weight pool returns `min(k, len)` items; the
second draw of the loop on the weights-`[1, 0, 0]` pool (remaining
weights `[0, 0]`, total 0, draw index 1) picks the `randint`-dictated
index; and the full run on that pool returns all three items. -/
theorem C5_witness :
    weighted_random_choice exRng [(("a", 1), (0 : ℚ)), (("b", 2), 0)] (-3) = []
    ∧ ((weighted_random_choice exRng [(("a", 1), (0 : ℚ)), (("b", 2), 0)] 5).length : Int)
        = min 5 2
    ∧ (wrcLoop exRng (1 + 1) 1 [(("b", 2), (0 : ℚ)), (("c", 3), 0)]).head?
        = some ("b", 2)
    ∧ weighted_random_choice exRng
        [(("a", 1), (1 : ℚ)), (("b", 2), 0), (("c", 3), 0)] 3
      = [("a", 1), ("b", 2), ("c", 3)] := by
  have hneg := (C5_sampler_contract exRng
    [(("a", 1), (0 : ℚ)), (("b", 2), 0)] (-3)).2.1 (Or.inl (by norm_num))
  have hlen := (C5_sampler_contract exRng
    [(("a", 1), (0 : ℚ)), (("b", 2), 0)] 5).1 (by norm_num)
  have hdraw := (C5_sampler_contract exRng
    [(("b", 2), (0 : ℚ)), (("c", 3), 0)] 5).2.2.1 1 1
    [(("b", 2), (0 : ℚ)), (("c", 3), 0)] (by simp) (by norm_num)
  refine ⟨hneg, by simpa using hlen, ?_, ?_⟩
  · rw [hdraw]
    simp [exRng]
  · norm_num [weighted_random_choice, wrcLoop, walkIdx, exRng,
      List.eraseIdx]

/-- C9: `calculate_all_likelihoods` returns each enabled item's baseline
weight normalized by the total; when the total weight is 0 it returns
the uniform `1/N`; and with at least one enabled item the returned
values sum to 1. -/
theorem C9_likelihoods (db : DB) (h1 : 1 ≤ enabledCount db) :
    (((baselineWeights db).map Prod.snd).sum ≠ 0 →
      calculate_all_likelihoods db = (baselineWeights db).map
        (fun kw => (kw.1, kw.2 / ((baselineWeights db).map Prod.snd).sum)))
    ∧ (((baselineWeights db).map Prod.snd).sum = 0 →
      calculate_all_likelihoods db = (baselineWeights db).map
        (fun kw => (kw.1, 1 / (enabledCount db : ℚ))))
    ∧ ((calculate_all_likelihoods db).map Prod.snd).sum = 1 := by
  have hlen := length_baselineWeights db
  have hne0 : baselineWeights db ≠ [] := by
    intro hnil
    rw [hnil] at hlen
    simp at hlen
    omega
  have hne : (baselineWeights db).isEmpty = false := by simp [hne0]
  have heq_ne : ((baselineWeights db).map Prod.snd).sum ≠ 0 →
      calculate_all_likelihoods db = (baselineWeights db).map
        (fun kw => (kw.1, kw.2 / ((baselineWeights db).map Prod.snd).sum)) := by
    intro h
    simp only [calculate_all_likelihoods]
    rw [if_neg h]
  have heq_eq : ((baselineWeights db).map Prod.snd).sum = 0 →
      calculate_all_likelihoods db = (baselineWeights db).map
        (fun kw => (kw.1, 1 / (enabledCount db : ℚ))) := by
    intro h
    simp only [calculate_all_likelihoods]
    rw [if_pos h]
    simp only [hne, Bool.false_eq_true, if_false, hlen]
  refine ⟨heq_ne, heq_eq, ?_⟩
  have hN : (enabledCount db : ℚ) ≠ 0 := by
    have hpos : (0 : ℚ) < (enabledCount db : ℚ) := by
      exact_mod_cast Nat.lt_of_lt_of_le Nat.zero_lt_one h1
    exact ne_of_gt hpos
  by_cases h : ((baselineWeights db).map Prod.snd).sum = 0
  · rw [heq_eq h, List.map_map]
    have hcomp : (Prod.snd ∘ fun kw : (String × Nat) × ℚ =>
        (kw.1, 1 / (enabledCount db : ℚ))) = fun _ => 1 / (enabledCount db : ℚ) :=
      rfl
    rw [hcomp, sum_map_const, hlen]
    field_simp
  · rw [heq_ne h, List.map_map]
    have hcomp : (Prod.snd ∘ fun kw : (String × Nat) × ℚ =>
        (kw.1, kw.2 / ((baselineWeights db).map Prod.snd).sum))
        = fun kw : (String × Nat) × ℚ =>
            kw.2 * (((baselineWeights db).map Prod.snd).sum)⁻¹ := by
      funext kw
      simp [div_eq_mul_inv]
    rw [hcomp, List.sum_map_mul_right]
    exact mul_inv_cancel₀ h

/-- Witness for C9 at a one-item snapshot. -/
theorem C9_witness :
    1 ≤ enabledCount exDb1
    ∧ ((calculate_all_likelihoods exDb1).map Prod.snd).sum = 1 := by
  have h1 : 1 ≤ enabledCount exDb1 := by
    simp [enabledCount, exDb1, exScaleA]
  exact ⟨h1, (C9_likelihoods exDb1 h1).2.2⟩

/-- A second enabled scale with the same octave count as `exScaleA`. -/
def exScaleC : CatalogItem :=
  { id := 2, note := "C", type := "major", octaves := 2, enabled := true }

/-- Two enabled scales sharing octave count 2, default config (so
`octave_variety` is true and weekly focus is off). -/
def exDb6 : DB :=
  { scales := [exScaleA, exScaleC], arpeggios := [], stats := exStats,
    config := none }

/-- C6 (code bug): `generate_practice_set` builds its pools once, before
any selection, with the still-empty `used_octaves` list, so the octave
penalty can never fire inside a generation call: with `octave_variety`
on and two enabled items sharing octave count 2, both pool entries carry
the full unpenalized weight 37/7, and the weights are never recomputed
between draws, so the item selected second keeps weight 37/7, not half.
The helper itself does halve (second conjunct: called with
`used_octaves = [2]` it yields 37/14), which is exactly the behaviour
the claim describes — `generate_practice_set` just never passes it a
non-empty `used_octaves`. -/
theorem C6_octave_penalty_dead_in_generation :
    octaveVariety exDb6 = true
    ∧ genPools exDb6 = ([],
        [(_build_item_data exScaleA "scale" 60 false, 37 / 7),
         (_build_item_data exScaleC "scale" 60 false, 37 / 7)])
    ∧ _get_all_weighted_items exDb6 (weightingOf exDb6) true [2] 60 72
        false [] [] [] []
      = ([],
        [(_build_item_data exScaleA "scale" 60 false, 37 / 14),
         (_build_item_data exScaleC "scale" 60 false, 37 / 14)]) := by
  refine ⟨rfl, ?_, ?_⟩
  · norm_num [genPools, _get_all_weighted_items, process_items, entryWeight,
      isFocusItem, calculate_item_weight, weightingOf, octaveVariety,
      defaultScaleBpm, defaultArpeggioBpm, wfEnabled, wfKeys, wfTypes,
      wfCategories, weeklyFocusOf, get_algorithm_config, exDb6, exStats,
      exScaleA, exScaleC, DEFAULT_ALGORITHM_CONFIG, _build_item_data]
  · norm_num [_get_all_weighted_items, process_items, entryWeight,
      isFocusItem, calculate_item_weight, weightingOf, weeklyFocusOf,
      get_algorithm_config, exDb6, exStats, exScaleA, exScaleC,
      DEFAULT_ALGORITHM_CONFIG, _build_item_data]

/-- An enabled scale whose articulation mode is `separate_only`. -/
def exScaleSepOnly : CatalogItem :=
  { id := 1, note := "C", type := "major", octaves := 2, enabled := true,
    articulation_mode := some "separate_only" }

/-- The persisted config of the repository's own articulation test:
`slurred_percent = 100`, `total_items = 5`. -/
def exCfg7 : AlgorithmConfig := { total_items := some 5, slurred_percent := some 100 }

/-- One `separate_only` scale under `slurred_percent = 100`. -/
def exDb7 : DB :=
  { scales := [exScaleSepOnly], arpeggios := [], stats := exStats,
    config := some exCfg7 }

/-- C7 (code bug): the selector assigns articulation purely from the
`slurred_percent` draw (`selector.py` lines 325-328) and never reads
`articulation_mode`; with a `separate_only` item and
`slurred_percent = 100` the generated item comes back "slurred", which
the repository's own test
`test_selector_separate_only_always_separate` forbids. -/
theorem C7_articulation_mode_ignored :
    exScaleSepOnly.articulation_mode = some "separate_only"
    ∧ (generate_practice_set exDb7 exGen).map
        (fun d => (d.type, d.id, d.articulation))
      = [("scale", 1, some "slurred")] := by
  refine ⟨rfl, ?_⟩
  norm_num [generate_practice_set, selectedItems, wfActive, wfEnabled,
    weeklyFocusOf, get_algorithm_config, exDb7, exCfg7, genPools,
    _get_all_weighted_items, process_items, entryWeight, isFocusItem,
    calculate_item_weight, weightingOf, octaveVariety, defaultScaleBpm,
    defaultArpeggioBpm, wfKeys, wfTypes, wfCategories, effectiveTotalItems,
    weighted_random_choice, wrcLoop, walkIdx, shuffle, shuffleLoop,
    assignArticulation, slurredPercent, exGen, exRng, exStats,
    exScaleSepOnly, _build_item_data, itemKey, List.eraseIdx]

/-- One enabled arpeggio with the same id as `exScaleA`. -/
def exArpC : CatalogItem :=
  { id := 1, note := "C", type := "major", octaves := 2, enabled := true }

/-- A legacy slot restricting selection to scales with 100% of the set. -/
def exSlotScales : Slot :=
  { name := "Scales only", types := ["major"], item_type := "scale",
    percent := 100 }

/-- Config declaring one scale-only slot at 100% with no variation,
`total_items = 1`, weekly focus absent. -/
def exCfg8 : AlgorithmConfig :=
  { total_items := some 1, variation := some 0, slots := some [exSlotScales] }

/-- One enabled scale and one enabled arpeggio under `exCfg8`. -/
def exDb8 : DB :=
  { scales := [exScaleA], arpeggios := [exArpC], stats := exStats,
    config := some exCfg8 }

/-- A sampling oracle whose uniform draw 6 lands past the scale's
cumulative weight 37/7 but within the total 74/7, picking the arpeggio. -/
def exRng8 : Rng := { uniform := fun _ => 6, randint := fun _ => 0 }

/-- The generation oracle built on `exRng8`. -/
def exGen8 : GenRng :=
  { phase1 := exRng8, phase2 := exRng8, phase3 := exRng8,
    shuffleR := fun _ => 0, artic := fun _ => 0 }

/-- Counterexample to C8: the config declares a scale-only slot covering
100% of `total_items = 1` with `variation = 0`, so categorical slot
allocation would have to select the scale (and the remainder fill is
empty); but the code's non-focus branch ignores `slots` entirely and,
under this oracle, returns the arpeggio. -/
theorem C8_counterexample :
    (get_algorithm_config exDb8).slots = some [exSlotScales]
    ∧ (get_algorithm_config exDb8).variation = some 0
    ∧ wfActive exDb8 = false
    ∧ (generate_practice_set exDb8 exGen8).map (fun d => (d.type, d.id))
      = [("arpeggio", 1)] := by
  refine ⟨rfl, rfl, rfl, ?_⟩
  norm_num [generate_practice_set, selectedItems, wfActive, wfEnabled,
    weeklyFocusOf, get_algorithm_config, exDb8, exCfg8, genPools,
    _get_all_weighted_items, process_items, entryWeight, isFocusItem,
    calculate_item_weight, weightingOf, octaveVariety, defaultScaleBpm,
    defaultArpeggioBpm, wfKeys, wfTypes, wfCategories, effectiveTotalItems,
    weighted_random_choice, wrcLoop, walkIdx, shuffle, shuffleLoop,
    assignArticulation, slurredPercent, exGen8, exRng8, exStats, exScaleA,
    exArpC, _build_item_data, itemKey, List.eraseIdx]

/-- The snapshot `db` with its algorithm config's legacy `slots` and
`variation` fields replaced (every other config field, the catalog and
the history are untouched). -/
def withSlots (db : DB) (s : Option (List Slot)) (v : Option ℚ) : DB :=
  let cfg := { get_algorithm_config db with slots := s, variation := v }
  { db with config := some cfg }

/-- C8 amended: when weekly focus is off (or has no active filter),
`generate_practice_set` performs no categorical slot allocation at all:
the declared `slots` and `variation` have no effect on the result (first
conjunct), and the whole selection is one weighted sample of
`total_items` items over all enabled items, then shuffle and
articulation assignment (second conjunct). -/
theorem C8_amended_generate_ignores_slots (db : DB) (g : GenRng)
    (slots' : Option (List Slot)) (var' : Option ℚ)
    (hwf : wfActive db = false) :
    generate_practice_set (withSlots db slots' var') g
      = generate_practice_set db g
    ∧ generate_practice_set db g
      = assignArticulation g.artic (slurredPercent db) 0
          (shuffle g.shuffleR (weighted_random_choice g.phase1
            ((genPools db).1 ++ (genPools db).2) (effectiveTotalItems db))) := by
  constructor
  · have h1 : effectiveTotalItems (withSlots db slots' var') = effectiveTotalItems db := rfl
    have h2 : wfActive (withSlots db slots' var') = wfActive db := rfl
    have h3 : wfProbability (withSlots db slots' var') = wfProbability db := rfl
    have h4 : slurredPercent (withSlots db slots' var') = slurredPercent db := rfl
    have h5 : genPools (withSlots db slots' var') = genPools db := rfl
    simp only [generate_practice_set, selectedItems, selectedAfterPhase2,
      focusSelections, nonFocusSelections, availableNonFocus, allRemaining,
      focusSlots, h1, h2, h3, h4, h5]
  · rw [generate_practice_set, selectedItems]
    simp only [hwf, Bool.false_eq_true, if_false]

/-- Witness for the amended C8 at a concrete snapshot: replacing the
declared slots by `none` leaves the generated set unchanged. -/
theorem C8_amended_witness :
    wfActive exDb8 = false
    ∧ generate_practice_set (withSlots exDb8 none none) exGen8
      = generate_practice_set exDb8 exGen8 :=
  ⟨rfl, (C8_amended_generate_ignores_slots exDb8 exGen8 none none rfl).1⟩

lemma focusSelections_flag (db : DB) (g : GenRng) :
    ∀ x ∈ focusSelections db g, x.is_weekly_focus = true := by
  intro x hx
  rw [focusSelections] at hx
  have hx' := mem_of_weighted_random_choice hx
  rw [List.mem_map] at hx'
  obtain ⟨dw, hdw, rfl⟩ := hx'
  exact (genPools_flags db).1 dw hdw

lemma nonFocusSelections_flag (db : DB) (g : GenRng) :
    ∀ x ∈ nonFocusSelections db g, x.is_weekly_focus = false := by
  intro x hx
  rw [nonFocusSelections] at hx
  have hx' := mem_of_weighted_random_choice hx
  rw [List.mem_map] at hx'
  obtain ⟨dw, hdw, rfl⟩ := hx'
  have hdw' : dw ∈ (genPools db).2 := by
    rw [availableNonFocus] at hdw
    exact (List.mem_filter.mp hdw).1
  exact (genPools_flags db).2 dw hdw'

lemma pyRound_intCast (t : ℤ) : pyRound (t : ℚ) = t := by
  rw [pyRound]
  rw [Int.floor_intCast]
  have h0 : (t : ℚ) - t = 0 := by ring
  rw [h0]
  norm_num

/-- C3: in weekly-focus slot-allocation mode with `total_items = 5` and
`probability_increase = 60`, the code reserves
`focus_slots = round(5 * 60 / 100) = 3` and `non_focus_slots = 2`, fills
the focus slots from the focus pool and the non-focus slots from the
non-focus pool; with at least 5 candidates in each pool the result holds
exactly 3 items flagged `is_weekly_focus` and exactly 2 unflagged. -/
theorem C3_partial_focus_allocation (db : DB) (g : GenRng)
    (hs : (db.scales.map (fun s => s.id)).Nodup)
    (ha : (db.arpeggios.map (fun s => s.id)).Nodup)
    (hT : effectiveTotalItems db = 5) (hP : wfProbability db = 60)
    (hwf : wfActive db = true)
    (hf : 5 ≤ (genPools db).1.length) (hnf : 5 ≤ (genPools db).2.length) :
    focusSlots db = 3
    ∧ (generate_practice_set db g).countP (fun d => d.is_weekly_focus) = 3
    ∧ (generate_practice_set db g).countP (fun d => !d.is_weekly_focus) = 2 := by
  have hfs : focusSlots db = 3 := by
    rw [focusSlots, hT, hP]
    have hq : ((5 : ℤ) : ℚ) * 60 / 100 = ((3 : ℤ) : ℚ) := by
      push_cast
      norm_num
    rw [hq, pyRound_intCast]
  have h1 : (focusSelections db g).length = 3 := by
    rw [length_focusSelections, hfs]
    omega
  have hav : availableNonFocus db g = (genPools db).2 :=
    availableNonFocus_eq db g hs ha
  have h2 : (nonFocusSelections db g).length = 2 := by
    rw [length_nonFocusSelections, hfs, hT, hav]
    omega
  have h12len : (selectedAfterPhase2 db g).length = 5 := by
    rw [selectedAfterPhase2, List.length_append, h1, h2]
  have hsel : selectedItems db g = selectedAfterPhase2 db g := by
    rw [selectedItems]
    simp only [hwf, if_true]
    rw [if_neg (by rw [h12len, hT]; omega)]
  have hc1 : (selectedAfterPhase2 db g).countP (fun d => d.is_weekly_focus) = 3 := by
    rw [selectedAfterPhase2, List.countP_append]
    have ha1 : (focusSelections db g).countP (fun d => d.is_weekly_focus)
        = (focusSelections db g).length := by
      rw [List.countP_eq_length]
      intro a haa
      simpa using focusSelections_flag db g a haa
    have ha2 : (nonFocusSelections db g).countP (fun d => d.is_weekly_focus) = 0 := by
      rw [List.countP_eq_zero]
      intro a haa
      simp [nonFocusSelections_flag db g a haa]
    rw [ha1, ha2, h1]
  have hc2 : (selectedAfterPhase2 db g).countP (fun d => !d.is_weekly_focus) = 2 := by
    rw [selectedAfterPhase2, List.countP_append]
    have ha1 : (focusSelections db g).countP (fun d => !d.is_weekly_focus) = 0 := by
      rw [List.countP_eq_zero]
      intro a haa
      simp [focusSelections_flag db g a haa]
    have ha2 : (nonFocusSelections db g).countP (fun d => !d.is_weekly_focus)
        = (nonFocusSelections db g).length := by
      rw [List.countP_eq_length]
      intro a haa
      simp [nonFocusSelections_flag db g a haa]
    rw [ha1, ha2, h2]
  refine ⟨hfs, ?_, ?_⟩
  · rw [countP_generate db g (fun d => d.is_weekly_focus) (fun item a => rfl),
      hsel]
    exact hc1
  · rw [countP_generate db g (fun d => !d.is_weekly_focus) (fun item a => rfl),
      hsel]
    exact hc2

/-- Config of the partial-focus scenario: `total_items = 5`, weekly
focus on key "A" with `probability_increase = 60`. -/
def exCfg3 : AlgorithmConfig where
  total_items := some 5
  octave_variety := some false
  weekly_focus := some
    { enabled := some true, keys := some ["A"], types := some [],
      probability_increase := some 60 }

/-- Five enabled "A"-major scales (the focus candidates). -/
def exFocusScales : List CatalogItem :=
  [ { id := 1, note := "A", type := "major", octaves := 1, enabled := true },
    { id := 2, note := "A", type := "major", octaves := 2, enabled := true },
    { id := 3, note := "A", type := "major", octaves := 3, enabled := true },
    { id := 4, note := "A", type := "major", octaves := 1, enabled := true },
    { id := 5, note := "A", type := "major", octaves := 2, enabled := true } ]

/-- Five enabled "C"-major scales (the non-focus candidates). -/
def exNonFocusScales : List CatalogItem :=
  [ { id := 6, note := "C", type := "major", octaves := 1, enabled := true },
    { id := 7, note := "C", type := "major", octaves := 2, enabled := true },
    { id := 8, note := "C", type := "major", octaves := 3, enabled := true },
    { id := 9, note := "C", type := "major", octaves := 1, enabled := true },
    { id := 10, note := "C", type := "major", octaves := 2, enabled := true } ]

/-- The partial-focus scenario snapshot: 5 focus + 5 non-focus scales. -/
def exDb3 : DB :=
  { scales := exFocusScales ++ exNonFocusScales, arpeggios := [],
    stats := exStats, config := some exCfg3 }

/-- Witness for C3 at the concrete 5-focus/5-non-focus snapshot. -/
theorem C3_witness :
    (effectiveTotalItems exDb3 = 5 ∧ wfProbability exDb3 = 60
      ∧ wfActive exDb3 = true ∧ 5 ≤ (genPools exDb3).1.length
      ∧ 5 ≤ (genPools exDb3).2.length)
    ∧ (generate_practice_set exDb3 exGen).countP (fun d => d.is_weekly_focus) = 3
    ∧ (generate_practice_set exDb3 exGen).countP (fun d => !d.is_weekly_focus) = 2 := by
  have hs : (exDb3.scales.map (fun s => s.id)).Nodup := by decide
  have ha : (exDb3.arpeggios.map (fun s => s.id)).Nodup := by decide
  have hT : effectiveTotalItems exDb3 = 5 := rfl
  have hP : wfProbability exDb3 = 60 := rfl
  have hwf : wfActive exDb3 = true := rfl
  have hCA : ¬("C" = "A") := by decide
  have hf : (genPools exDb3).1.length = 5 := by
    norm_num [genPools, _get_all_weighted_items, process_items, entryWeight,
      isFocusItem, exDb3, exFocusScales, exNonFocusScales, exCfg3, exStats,
      weightingOf, octaveVariety, defaultScaleBpm, defaultArpeggioBpm,
      wfEnabled, wfKeys, wfTypes, wfCategories, weeklyFocusOf,
      get_algorithm_config, hCA]
  have hnf : (genPools exDb3).2.length = 5 := by
    norm_num [genPools, _get_all_weighted_items, process_items, entryWeight,
      isFocusItem, exDb3, exFocusScales, exNonFocusScales, exCfg3, exStats,
      weightingOf, octaveVariety, defaultScaleBpm, defaultArpeggioBpm,
      wfEnabled, wfKeys, wfTypes, wfCategories, weeklyFocusOf,
      get_algorithm_config, hCA]
  have hmain := C3_partial_focus_allocation exDb3 exGen hs ha hT hP hwf
    (by omega) (by omega)
  exact ⟨⟨hT, hP, hwf, by omega, by omega⟩, hmain.2.1, hmain.2.2⟩

end PracticeSelector
